import Mathlib

/-!
Verification of the logreason-frontend geospatial core: the Feature Store and
spatial queries of `src/services/MapService.js` and the adjacency-aware
polygon colorer of `src/utils/colorUtils.js`, shallowly embedded in Lean.

JavaScript `Map` objects (insertion-ordered, unique keys) are embedded as
association lists; the helpers `jsGet`, `jsSet`, `jsHas`, `jsDelete` mirror
`Map.get` / `Map.set` / `Map.has` / `Map.delete`.
-/

/-- A bounding extent `[minX, minY, maxX, maxY]` as used by OpenLayers. -/
structure Extent where
  minX : Int
  minY : Int
  maxX : Int
  maxY : Int
deriving DecidableEq, Repr

/-- A feature geometry: its OpenLayers type tag (`geometry.getType()`), the
flattened coordinate list (`geometry.getCoordinates().flat(Infinity)`), and its
bounding extent (`geometry.getExtent()`). Coordinates are modelled as integers;
only their rendering and comparison matter to the verified code. -/
structure Geometry where
  gtype : String
  coords : List Int
  ext : Extent
deriving DecidableEq, Repr

/-- An OpenLayers feature: `oid` models JavaScript object identity (two
distinct feature objects have distinct `oid`s, so `===` is equality of the
whole structure), `fid` models the optional id slot read by `getId()`. -/
structure Feature where
  oid : Nat
  fid : Option String
  geom : Geometry
deriving DecidableEq, Repr

/-- `Map.get k`: the value of the first (only) entry with key `k`. -/
def jsGet {α β : Type} [DecidableEq α] (m : List (α × β)) (k : α) : Option β :=
  match m with
  | [] => none
  | p :: rest => if p.1 = k then some p.2 else jsGet rest k

/-- `Map.has k`. -/
def jsHas {α β : Type} [DecidableEq α] (m : List (α × β)) (k : α) : Bool :=
  (jsGet m k).isSome

/-- `Map.set k v`: replaces the value in place when the key is present,
otherwise appends the new entry (JS maps preserve insertion order). -/
def jsSet {α β : Type} [DecidableEq α] (m : List (α × β)) (k : α) (v : β) :
    List (α × β) :=
  if jsHas m k then m.map (fun p => if p.1 = k then (k, v) else p)
  else m ++ [(k, v)]

/-- `Map.delete k`. -/
def jsDelete {α β : Type} [DecidableEq α] (m : List (α × β)) (k : α) :
    List (α × β) :=
  m.filter (fun p => p.1 ≠ k)

/- ### colorUtils.js -/

/-- `generateFeatureHash`: the flattened coordinates joined with commas. -/
def generateFeatureHash (feature : Feature) : String :=
  String.intercalate "," (feature.geom.coords.map toString)

/-- JavaScript `ToInt32`: the result of `x & x` (or of `<<`) on a number,
i.e. the representative of `x` modulo `2^32` lying in `[-2^31, 2^31)`. -/
def toInt32 (x : Int) : Int :=
  (x + 2 ^ 31) % 2 ^ 32 - 2 ^ 31

/-- One iteration of the `generateContentHash` loop:
`hash = ((hash << 5) - hash) + char; hash = hash & hash`. The shift operates
on 32-bit integers, the sum is exact, and the `& hash` re-wraps to 32 bits. -/
def hashStep (h : Int) (c : Char) : Int :=
  toInt32 (toInt32 (h * 32) - h + (c.toNat : Int))

/-- `generateContentHash`: the 31-based rolling hash over the file content.
The source renders the final 32-bit integer with `toString()` before storing
it; decimal rendering is injective, so the model keeps the integer itself. -/
def generateContentHash (content : List Char) : Int :=
  content.foldl hashStep 0

/-- The `colorCache` object of colorUtils.js. `fileHashes` is keyed by the
string `file_${i}`; since that encoding is injective in `i`, the model uses
the index `i` itself as the key. -/
structure ColorCache where
  timestamp : Option Nat
  polygonColors : List (String × String)
  fileHashes : List (Nat × Int)
deriving DecidableEq, Repr

/-- The fingerprint-comparison loop of `isCacheValid`: entry `i` must be
present and equal to the fresh hash of `geojsonFiles[i]`. -/
def checkFiles (fileHashes : List (Nat × Int)) : Nat → List (List Char) → Bool
  | _, [] => true
  | i, content :: rest =>
    match jsGet fileHashes i with
    | none => false
    | some h => if h = generateContentHash content then checkFiles fileHashes (i + 1) rest
                else false

/-- `isCacheValid`: false when no rebuild has happened yet, when the file
count changed, or when any stored fingerprint differs from the fresh one. -/
def isCacheValid (cache : ColorCache) (geojsonFiles : List (List Char)) : Bool :=
  match cache.timestamp with
  | none => false
  | some _ =>
    if geojsonFiles.length ≠ cache.fileHashes.length then false
    else checkFiles cache.fileHashes 0 geojsonFiles

/-- The `updateCache` loop: store `file_i ↦ hash(content_i)` for each file
into the (cleared) fingerprint map. -/
def setFileHashes : Nat → List (List Char) → List (Nat × Int) → List (Nat × Int)
  | _, [], m => m
  | i, content :: rest, m =>
    setFileHashes (i + 1) rest (jsSet m i (generateContentHash content))

/-- `updateCache`: fresh timestamp (`Date.now()` is passed in as `now`; only
its presence matters to the verified code) and rebuilt fingerprints. -/
def updateCache (geojsonFiles : List (List Char)) (now : Nat) (cache : ColorCache) :
    ColorCache :=
  { cache with timestamp := some now, fileHashes := setFileHashes 0 geojsonFiles [] }

/-- `intersects` on extents (ol/extent): the two rectangles overlap. -/
def extentsIntersect (a b : Extent) : Bool :=
  a.minX ≤ b.maxX && a.maxX ≥ b.minX && a.minY ≤ b.maxY && a.maxY ≥ b.minY

/-- Modelled from the spec: the OpenLayers library call
`featureGeometry.intersectsExtent(otherGeometry.getExtent())` (library code,
not part of this repository) is "every other feature whose geometry's bounding
extent overlaps this feature's bounding extent", i.e. the bounding-box overlap
test of the two geometries' extents. -/
def intersectsExtent (g : Geometry) (e : Extent) : Bool :=
  extentsIntersect g.ext e

/-- `findNeighbors`: every other feature (object identity `!==`) whose extent
test succeeds, in input order. -/
def findNeighbors (feature : Feature) (allFeatures : List Feature) : List Feature :=
  allFeatures.filter (fun other =>
    decide (feature ≠ other) && intersectsExtent feature.geom other.geom.ext)

/-- The fixed ten-color palette of `generateDistinctColor`. -/
def colorPalette : List String :=
  ["rgba(31, 119, 180, 0.7)",
   "rgba(255, 127, 14, 0.7)",
   "rgba(44, 160, 44, 0.7)",
   "rgba(214, 39, 40, 0.7)",
   "rgba(148, 103, 189, 0.7)",
   "rgba(140, 86, 75, 0.7)",
   "rgba(227, 119, 194, 0.7)",
   "rgba(127, 127, 127, 0.7)",
   "rgba(188, 189, 34, 0.7)",
   "rgba(23, 190, 207, 0.7)"]

/-- The random fallback color string built from three draws of
`Math.floor(Math.random() * 256)`; the oracle supplies the three raw numbers
and `% 256` models their range. -/
def randomColorString (rgb : Nat × Nat × Nat) : String :=
  "rgba(" ++ toString (rgb.1 % 256) ++ ", " ++ toString (rgb.2.1 % 256) ++
    ", " ++ toString (rgb.2.2 % 256) ++ ", 0.7)"

/-- `generateDistinctColor`: first palette color not among `existingColors`,
else a fresh random color (the oracle `rgb` supplies the random draws). -/
def generateDistinctColor (existingColors : List String) (rgb : Nat × Nat × Nat) :
    String :=
  match colorPalette.find? (fun c => !existingColors.contains c) with
  | some c => c
  | none => randomColorString rgb

/-- The neighbor-color collection step of `getPolygonColor`: cached colors of
the neighbors; `.filter(Boolean)` drops both missing entries (`undefined`) and
empty strings. -/
def neighborColors (feature : Feature) (allFeatures : List Feature)
    (m : List (String × String)) : List String :=
  (((findNeighbors feature allFeatures).map
      (fun n => jsGet m (generateFeatureHash n))).filterMap id).filter
    (fun s => s ≠ "")

/-- `getPolygonColor`: cached color if present, else a color distinct from the
already-colored neighbors, which is then stored in the cache. Returns the
color together with the updated `polygonColors` map. -/
def getPolygonColor (feature : Feature) (allFeatures : List Feature)
    (rgb : Nat × Nat × Nat) (m : List (String × String)) :
    String × List (String × String) :=
  let featureHash := generateFeatureHash feature
  match jsGet m featureHash with
  | some c => (c, m)
  | none =>
    let color := generateDistinctColor (neighborColors feature allFeatures m) rgb
    (color, jsSet m featureHash color)

/-- The assignment loop of `calculatePolygonColors`: process each feature in
order; `rand i` is the oracle for the random draws of iteration `i`. -/
def assignColors (allFeatures : List Feature) (rand : Nat → Nat × Nat × Nat) :
    List Feature → Nat → List (String × String) → List (String × String)
  | [], _, m => m
  | f :: rest, i, m =>
    assignColors allFeatures rand rest (i + 1) (getPolygonColor f allFeatures (rand i) m).2

/-- The prune-on-hit step: delete every cached color whose feature hash is not
among the current features' hashes. -/
def pruneColors (currentHashes : List String) (m : List (String × String)) :
    List (String × String) :=
  m.filter (fun p => currentHashes.contains p.1)

/-- The cache-validation phase of `calculatePolygonColors`: prune on a cache
hit, otherwise clear the color map and store the fresh fingerprints. -/
def revalidateCache (features : List Feature) (geojsonFiles : List (List Char))
    (now : Nat) (cache : ColorCache) : ColorCache :=
  if isCacheValid cache geojsonFiles then
    { cache with
        polygonColors := pruneColors (features.map generateFeatureHash) cache.polygonColors }
  else
    updateCache geojsonFiles now { cache with polygonColors := [] }

/-- `calculatePolygonColors`: validation phase then color assignment; returns
the featureHash→color map together with the updated global cache. -/
def calculatePolygonColors (features : List Feature)
    (geojsonFiles : List (List Char)) (now : Nat) (rand : Nat → Nat × Nat × Nat)
    (cache : ColorCache) : List (String × String) × ColorCache :=
  let cache1 := revalidateCache features geojsonFiles now cache
  let m := assignColors features rand features 0 cache1.polygonColors
  (m, { cache1 with polygonColors := m })

/-- The per-feature write of `applyPolygonColors`:
`colorMap.get(hash) || 'rgba(100, 150, 200, 0.5)'` — the neutral default is
used when the entry is missing or is a falsy (empty) string. -/
def fillColorFor (m : List (String × String)) (feature : Feature) : String :=
  match jsGet m (generateFeatureHash feature) with
  | some c => if c = "" then "rgba(100, 150, 200, 0.5)" else c
  | none => "rgba(100, 150, 200, 0.5)"

/-- `applyPolygonColors`: computes the color map and records, per feature in
order, the color written onto its `fillColor` property. -/
def applyPolygonColors (features : List Feature)
    (geojsonFiles : List (List Char)) (now : Nat) (rand : Nat → Nat × Nat × Nat)
    (cache : ColorCache) : List (Feature × String) × ColorCache :=
  let r := calculatePolygonColors features geojsonFiles now rand cache
  (features.map (fun f => (f, fillColorFor r.1 f)), r.2)

/- ### MapService.js -/

/-- `generateFeatureId`: geometry type, underscore, flattened coordinates
joined with commas. -/
def generateFeatureId (feature : Feature) : String :=
  feature.geom.gtype ++ "_" ++
    String.intercalate "," (feature.geom.coords.map toString)

/-- The id chosen by `indexFeatures` / the add listener:
`feature.getId() || generateFeatureId(feature)` — the derived id is used when
the slot is absent or holds a falsy (empty) string. -/
def assignedId (feature : Feature) : String :=
  match feature.fid with
  | some s => if s = "" then generateFeatureId feature else s
  | none => generateFeatureId feature

/-- `indexFeatures` over one source partition: set each feature's id and store
it under that id, in source order. -/
def indexFeatures (features : List Feature) : List (String × Feature) :=
  features.foldl
    (fun m f => jsSet m (assignedId f) { f with fid := some (assignedId f) }) []

/-- A JavaScript runtime error surfaced by the embedded code. -/
inductive JsError where
  | typeError
deriving DecidableEq, Repr

/-- The `distanceTo` method looked up on the value returned by
`getCoordinates()`. OpenLayers coordinates are plain JavaScript arrays
(`Array<number>`), and neither the array prototype nor anything in this
repository defines a `distanceTo` method, so the lookup yields `undefined`. -/
def coordinateDistanceTo? : Option (List Int → List Int → Rat) :=
  none

/-- `calculateDistanceBetweenMarkers`:
`geometry1.getCoordinates().distanceTo(geometry2.getCoordinates())` — calling
the method found by `coordinateDistanceTo?`; invoking `undefined` throws a
`TypeError`. -/
def calculateDistanceBetweenMarkers (marker1 marker2 : Feature) :
    Except JsError Rat :=
  match coordinateDistanceTo? with
  | none => .error .typeError
  | some f => .ok (f marker1.geom.coords marker2.geom.coords)

/-- The scan loop of `findNearestMarker`; `minD = none` is the initial
`Infinity`. -/
def findNearestLoop (marker : Feature) : List Feature → Option Feature →
    Option Rat → Except JsError (Option Feature)
  | [], best, _ => .ok best
  | other :: rest, best, minD =>
    if other = marker then findNearestLoop marker rest best minD
    else
      match calculateDistanceBetweenMarkers marker other with
      | .error e => .error e
      | .ok d =>
        if (match minD with | none => true | some md => decide (d < md)) then
          findNearestLoop marker rest (some other) (some d)
        else findNearestLoop marker rest best minD

/-- `findNearestMarker` over the store's marker partition (in iteration
order): `null` when the store holds at most one marker, else the nearest
other marker. -/
def findNearestMarker (markers : List Feature) (marker : Feature) :
    Except JsError (Option Feature) :=
  if markers.length ≤ 1 then .ok none
  else findNearestLoop marker markers none none

/-- The scan loop of `findMarkersWithinDistance`. -/
def findWithinLoop (marker : Feature) (dist : Rat) : List Feature →
    List Feature → Except JsError (List Feature)
  | [], acc => .ok acc
  | other :: rest, acc =>
    if other = marker then findWithinLoop marker dist rest acc
    else
      match calculateDistanceBetweenMarkers marker other with
      | .error e => .error e
      | .ok d =>
        if d ≤ dist then findWithinLoop marker dist rest (acc ++ [other])
        else findWithinLoop marker dist rest acc

/-- `findMarkersWithinDistance` over the store's marker partition. -/
def findMarkersWithinDistance (markers : List Feature) (marker : Feature)
    (dist : Rat) : Except JsError (List Feature) :=
  findWithinLoop marker dist markers []

/- ### Association-list (JS Map) lemmas -/

theorem jsGet_map_replace_ne {α β : Type} [DecidableEq α] (m : List (α × β))
    (k : α) (v : β) (k' : α) (h : k' ≠ k) :
    jsGet (m.map (fun p => if p.1 = k then (k, v) else p)) k' = jsGet m k' := by
  induction m with
  | nil => rfl
  | cons p rest ih =>
    by_cases hk : p.1 = k
    · simp [jsGet, hk, Ne.symm h, ih]
    · simp only [List.map_cons, if_neg hk, jsGet]
      by_cases hk' : p.1 = k' <;> simp [hk', ih]

theorem jsGet_map_replace_self {α β : Type} [DecidableEq α] (m : List (α × β))
    (k : α) (v : β) (h : jsHas m k = true) :
    jsGet (m.map (fun p => if p.1 = k then (k, v) else p)) k = some v := by
  induction m with
  | nil => simp [jsHas, jsGet] at h
  | cons p rest ih =>
    by_cases hk : p.1 = k
    · simp [jsGet, hk]
    · simp only [jsHas, jsGet, if_neg hk, List.map_cons] at h ⊢
      simpa [hk] using ih h

theorem jsGet_append {α β : Type} [DecidableEq α] (m l : List (α × β)) (k : α) :
    jsGet (m ++ l) k =
      (match jsGet m k with | some v => some v | none => jsGet l k) := by
  induction m with
  | nil => rfl
  | cons p rest ih =>
    by_cases hk : p.1 = k <;> simp [jsGet, hk, ih]

theorem jsGet_set_self {α β : Type} [DecidableEq α] (m : List (α × β))
    (k : α) (v : β) : jsGet (jsSet m k v) k = some v := by
  unfold jsSet
  by_cases h : jsHas m k = true
  · simp [h, jsGet_map_replace_self m k v h]
  · have hn : jsGet m k = none := by simpa [jsHas] using h
    simp [h, jsGet_append, hn, jsGet]

theorem jsGet_set_ne {α β : Type} [DecidableEq α] (m : List (α × β))
    (k : α) (v : β) (k' : α) (h : k' ≠ k) :
    jsGet (jsSet m k v) k' = jsGet m k' := by
  unfold jsSet
  by_cases hh : jsHas m k = true
  · simp [hh, jsGet_map_replace_ne m k v k' h]
  · simp only [hh, Bool.false_eq_true, if_false, jsGet_append]
    cases hg : jsGet m k' with
    | some v' => simp
    | none => simp [jsGet, Ne.symm h]

theorem mem_jsSet {α β : Type} [DecidableEq α] {m : List (α × β)} {k : α}
    {v : β} {p : α × β} (h : p ∈ jsSet m k v) : p ∈ m ∨ p = (k, v) := by
  unfold jsSet at h
  by_cases hh : jsHas m k = true
  · rw [if_pos hh] at h
    obtain ⟨q, hq, hfq⟩ := List.mem_map.mp h
    by_cases hk : q.1 = k
    · right; rw [if_pos hk] at hfq; exact hfq.symm
    · left; rw [if_neg hk] at hfq; rwa [hfq] at hq
  · rw [if_neg hh] at h
    rcases List.mem_append.mp h with h1 | h2
    · exact Or.inl h1
    · exact Or.inr (List.mem_singleton.mp h2)

theorem jsGet_isSome_of_mem {α β : Type} [DecidableEq α] {m : List (α × β)}
    {p : α × β} (h : p ∈ m) : jsGet m p.1 ≠ none := by
  induction m with
  | nil => cases h
  | cons q rest ih =>
    rcases List.mem_cons.mp h with h1 | h2
    · subst h1; simp [jsGet]
    · by_cases hk : q.1 = p.1 <;> simp [jsGet, hk, ih h2]

theorem jsGet_filter_key {α β : Type} [DecidableEq α] (m : List (α × β))
    (q : α → Bool) (k : α) :
    jsGet (m.filter (fun p => q p.1)) k =
      (if q k then jsGet m k else none) := by
  induction m with
  | nil => simp [jsGet]
  | cons p rest ih =>
    by_cases hk : p.1 = k
    · subst hk
      by_cases hq : q p.1 <;> simp [jsGet, hq, List.filter_cons, ih]
    · by_cases hq : q p.1 <;> simp [jsGet, hq, hk, List.filter_cons, ih]

/- ### Lemmas about the color-assignment loop -/

theorem getPolygonColor_hit {f : Feature} {all : List Feature}
    {rgb : Nat × Nat × Nat} {m : List (String × String)} {c : String}
    (h : jsGet m (generateFeatureHash f) = some c) :
    getPolygonColor f all rgb m = (c, m) := by
  simp [getPolygonColor, h]

theorem getPolygonColor_miss {f : Feature} {all : List Feature}
    {rgb : Nat × Nat × Nat} {m : List (String × String)}
    (h : jsGet m (generateFeatureHash f) = none) :
    getPolygonColor f all rgb m =
      (generateDistinctColor (neighborColors f all m) rgb,
       jsSet m (generateFeatureHash f)
         (generateDistinctColor (neighborColors f all m) rgb)) := by
  simp [getPolygonColor, h]

theorem getPolygonColor_preserves {f : Feature} {all : List Feature}
    {rgb : Nat × Nat × Nat} {m : List (String × String)} {h : String}
    {v : String} (hv : jsGet m h = some v) :
    jsGet (getPolygonColor f all rgb m).2 h = some v := by
  cases hm : jsGet m (generateFeatureHash f) with
  | some c => rw [getPolygonColor_hit hm]; exact hv
  | none =>
    rw [getPolygonColor_miss hm]
    have hne : h ≠ generateFeatureHash f := by
      intro he; rw [he, hm] at hv; cases hv
    simpa [jsGet_set_ne _ _ _ _ hne] using hv

theorem assignColors_preserves {all : List Feature}
    {rand : Nat → Nat × Nat × Nat} {fs : List Feature} {i : Nat}
    {m : List (String × String)} {h v : String} (hv : jsGet m h = some v) :
    jsGet (assignColors all rand fs i m) h = some v := by
  induction fs generalizing i m with
  | nil => exact hv
  | cons f rest ih =>
    exact ih (getPolygonColor_preserves hv)

theorem assignColors_has {all : List Feature} {rand : Nat → Nat × Nat × Nat}
    {fs : List Feature} {i : Nat} {m : List (String × String)} {f : Feature}
    (hf : f ∈ fs) :
    jsGet (assignColors all rand fs i m) (generateFeatureHash f) ≠ none := by
  induction fs generalizing i m with
  | nil => cases hf
  | cons g rest ih =>
    rcases List.mem_cons.mp hf with h1 | h2
    · subst h1
      have : ∃ c, jsGet (getPolygonColor f all (rand i) m).2
          (generateFeatureHash f) = some c := by
        cases hm : jsGet m (generateFeatureHash f) with
        | some c => exact ⟨c, by rw [getPolygonColor_hit hm]; exact hm⟩
        | none =>
          refine ⟨generateDistinctColor (neighborColors f all m) (rand i), ?_⟩
          rw [getPolygonColor_miss hm]
          exact jsGet_set_self _ _ _
      obtain ⟨c, hc⟩ := this
      simp [assignColors, assignColors_preserves hc]
    · exact ih h2

theorem assignColors_keys {all : List Feature} {rand : Nat → Nat × Nat × Nat}
    {fs : List Feature} {i : Nat} {m : List (String × String)} {h : String}
    (hm : jsGet m h = none) (hfs : h ∉ fs.map generateFeatureHash) :
    jsGet (assignColors all rand fs i m) h = none := by
  induction fs generalizing i m with
  | nil => exact hm
  | cons f rest ih =>
    simp only [List.map_cons, List.mem_cons, not_or] at hfs
    have hstep : jsGet (getPolygonColor f all (rand i) m).2 h = none := by
      cases hc : jsGet m (generateFeatureHash f) with
      | some c => rw [getPolygonColor_hit hc]; exact hm
      | none =>
        rw [getPolygonColor_miss hc]
        rw [jsGet_set_ne _ _ _ _ hfs.1]
        exact hm
    exact ih hstep hfs.2

theorem assignColors_id {all : List Feature} {rand : Nat → Nat × Nat × Nat}
    {fs : List Feature} {i : Nat} {m : List (String × String)}
    (hall : ∀ f ∈ fs, jsGet m (generateFeatureHash f) ≠ none) :
    assignColors all rand fs i m = m := by
  induction fs generalizing i with
  | nil => rfl
  | cons f rest ih =>
    have hf := hall f (List.mem_cons_self f rest)
    cases hc : jsGet m (generateFeatureHash f) with
    | none => exact absurd hc hf
    | some c =>
      simp only [assignColors, getPolygonColor_hit hc]
      exact ih (fun g hg => hall g (List.mem_cons_of_mem f hg))

/- ### Lemmas about fingerprint bookkeeping -/

theorem jsGet_none_of_keys_lt {β : Type} {m : List (Nat × β)} {i k : Nat}
    (hm : ∀ p ∈ m, p.1 < i) (hk : i ≤ k) : jsGet m k = none := by
  induction m with
  | nil => rfl
  | cons p rest ih =>
    have h1 : p.1 < i := hm p (List.mem_cons_self p rest)
    have hne : p.1 ≠ k := by omega
    simp only [jsGet, if_neg hne]
    exact ih (fun q hq => hm q (List.mem_cons_of_mem p hq))

theorem keys_lt_jsSet {β : Type} {m : List (Nat × β)} {i : Nat} {v : β}
    (hm : ∀ p ∈ m, p.1 < i) : ∀ p ∈ jsSet m i v, p.1 < i + 1 := by
  intro p hp
  rcases mem_jsSet hp with h1 | h2
  · exact Nat.lt_succ_of_lt (hm p h1)
  · rw [h2]; exact Nat.lt_succ_self i

theorem setFileHashes_get_lt {files : List (List Char)} {i k : Nat}
    {m : List (Nat × Int)} (hk : k < i) (hm : ∀ p ∈ m, p.1 < i) :
    jsGet (setFileHashes i files m) k = jsGet m k := by
  induction files generalizing i m with
  | nil => rfl
  | cons c rest ih =>
    have hne : k ≠ i := by omega
    rw [setFileHashes, ih (by omega) (keys_lt_jsSet hm),
      jsGet_set_ne m i _ k hne]

theorem setFileHashes_get {files : List (List Char)} {i : Nat}
    {m : List (Nat × Int)} (hm : ∀ p ∈ m, p.1 < i) (j : Nat) :
    jsGet (setFileHashes i files m) (i + j) =
      (files.get? j).map generateContentHash := by
  induction files generalizing i m j with
  | nil =>
    rw [setFileHashes, jsGet_none_of_keys_lt hm (Nat.le_add_right i j)]
    rfl
  | cons c rest ih =>
    cases j with
    | zero =>
      rw [setFileHashes]
      have h1 : jsGet (setFileHashes (i + 1) rest
            (jsSet m i (generateContentHash c))) (i + 0) =
          jsGet (jsSet m i (generateContentHash c)) (i + 0) :=
        setFileHashes_get_lt (by omega) (keys_lt_jsSet hm)
      rw [h1, Nat.add_zero, jsGet_set_self]
      rfl
    | succ j' =>
      have harith : i + (j' + 1) = (i + 1) + j' := by omega
      rw [setFileHashes, harith, ih (keys_lt_jsSet hm) ]
      rfl

theorem setFileHashes_length {files : List (List Char)} {i : Nat}
    {m : List (Nat × Int)} (hm : ∀ p ∈ m, p.1 < i) :
    (setFileHashes i files m).length = m.length + files.length := by
  induction files generalizing i m with
  | nil => rfl
  | cons c rest ih =>
    have hhas : jsHas m i = false := by
      simp [jsHas, jsGet_none_of_keys_lt hm (Nat.le_refl i)]
    rw [setFileHashes, ih (keys_lt_jsSet hm)]
    simp [jsSet, hhas]
    omega

theorem checkFiles_of_get {fh : List (Nat × Int)} {files : List (List Char)}
    {i : Nat}
    (h : ∀ j content, files.get? j = some content →
      jsGet fh (i + j) = some (generateContentHash content)) :
    checkFiles fh i files = true := by
  induction files generalizing i with
  | nil => rfl
  | cons c rest ih =>
    have h0 : jsGet fh i = some (generateContentHash c) := by
      have := h 0 c rfl
      simpa using this
    rw [checkFiles, h0]
    simp only [if_pos rfl]
    apply ih
    intro j content hj
    have := h (j + 1) content (by simpa using hj)
    have harith : i + (j + 1) = (i + 1) + j := by omega
    rwa [harith] at this

theorem checkFiles_extract {fh : List (Nat × Int)} {files : List (List Char)}
    {i : Nat} (h : checkFiles fh i files = true) :
    ∀ j content, files.get? j = some content →
      jsGet fh (i + j) = some (generateContentHash content) := by
  induction files generalizing i with
  | nil => intro j content hj; cases hj
  | cons c rest ih =>
    intro j content hj
    cases hg : jsGet fh i with
    | none => simp only [checkFiles, hg] at h; cases h
    | some v =>
      simp only [checkFiles, hg] at h
      by_cases hv : v = generateContentHash c
      · rw [if_pos hv] at h
        cases j with
        | zero =>
          simp only [List.get?] at hj
          cases hj
          rw [Nat.add_zero, hg, hv]
        | succ j' =>
          have harith : i + (j' + 1) = (i + 1) + j' := by omega
          rw [harith]
          exact ih h j' content (by simpa using hj)
      · rw [if_neg hv] at h; cases h

theorem isCacheValid_updateCache (files : List (List Char)) (now : Nat)
    (cache : ColorCache) :
    isCacheValid (updateCache files now cache) files = true := by
  have hkeys : ∀ p ∈ ([] : List (Nat × Int)), p.1 < 0 := by intro p hp; cases hp
  have hget : ∀ j, jsGet (setFileHashes 0 files []) (0 + j) =
      (files.get? j).map generateContentHash := fun j => setFileHashes_get hkeys j
  have hlen : (setFileHashes 0 files []).length = files.length := by
    rw [setFileHashes_length hkeys]; simp
  have hcheck : checkFiles (setFileHashes 0 files []) 0 files = true :=
    checkFiles_of_get (fun j content hj => by rw [hget j, hj]; rfl)
  simp [updateCache, isCacheValid, hlen, hcheck]

/- ### Color values are never the empty string -/

theorem mem_colorPalette_ne_empty : ∀ c ∈ colorPalette, c ≠ "" := by decide

theorem randomColorString_ne_empty (rgb : Nat × Nat × Nat) :
    randomColorString rgb ≠ "" := by
  intro h
  have hlen := congrArg String.length h
  rw [randomColorString] at hlen
  simp [String.length_append] at hlen
  exact absurd hlen.1.1.1.1.1.1 (by decide)

theorem generateDistinctColor_ne_empty (existing : List String)
    (rgb : Nat × Nat × Nat) : generateDistinctColor existing rgb ≠ "" := by
  rw [generateDistinctColor]
  cases hf : colorPalette.find? (fun c => !existing.contains c) with
  | some c =>
    exact mem_colorPalette_ne_empty c (List.mem_of_find?_eq_some hf)
  | none => exact randomColorString_ne_empty rgb

theorem assignColors_values {all : List Feature}
    {rand : Nat → Nat × Nat × Nat} {fs : List Feature} {i : Nat}
    {m : List (String × String)} (hm : ∀ p ∈ m, p.2 ≠ "") :
    ∀ p ∈ assignColors all rand fs i m, p.2 ≠ "" := by
  induction fs generalizing i m with
  | nil => exact hm
  | cons f rest ih =>
    apply ih
    intro p hp
    cases hc : jsGet m (generateFeatureHash f) with
    | some c =>
      rw [getPolygonColor_hit hc] at hp
      exact hm p hp
    | none =>
      rw [getPolygonColor_miss hc] at hp
      rcases mem_jsSet hp with h1 | h2
      · exact hm p h1
      · rw [h2]
        exact generateDistinctColor_ne_empty _ _

theorem jsGet_mem {α β : Type} [DecidableEq α] {m : List (α × β)} {k : α}
    {v : β} (h : jsGet m k = some v) : (k, v) ∈ m := by
  induction m with
  | nil => cases h
  | cons p rest ih =>
    rw [jsGet] at h
    by_cases hk : p.1 = k
    · rw [if_pos hk] at h
      injection h with h2
      have hp : p = (k, v) := by
        obtain ⟨a, b⟩ := p
        cases hk
        cases h2
        rfl
      rw [← hp]
      exact List.mem_cons_self p rest
    · rw [if_neg hk] at h
      exact List.mem_cons_of_mem p (ih h)

/- ### Claim theorems -/

/-- C4: the claim says `calculateDistanceBetweenMarkers` returns the planar
Euclidean distance as a number without raising. The code instead calls the
nonexistent method `distanceTo` on the plain coordinate array returned by
`getCoordinates()`, which throws a `TypeError` for every pair of markers. -/
theorem spec_C4_distance_throws (marker1 marker2 : Feature) :
    calculateDistanceBetweenMarkers marker1 marker2 = .error .typeError := rfl

/-- C9: a feature lacking an id is assigned the derived id
`type + "_" + flattened coordinates joined by comma`, and the derivation is a
pure function of the geometry: identical geometries derive identical ids. -/
theorem spec_C9_derived_id (f g : Feature) :
    (f.fid = none → assignedId f =
      f.geom.gtype ++ "_" ++
        String.intercalate "," (f.geom.coords.map toString)) ∧
    (f.geom = g.geom → generateFeatureId f = generateFeatureId g) := by
  constructor
  · intro h
    rw [assignedId, h]
    rfl
  · intro h
    rw [generateFeatureId, generateFeatureId, h]

/-- Witness for C9 at a concrete polygon feature without an id. -/
theorem spec_C9_derived_id_witness :
    assignedId ⟨0, none, ⟨"Polygon", [1, 2], ⟨0, 0, 10, 10⟩⟩⟩ = "Polygon_1,2" ∧
    generateFeatureId ⟨0, none, ⟨"Polygon", [1, 2], ⟨0, 0, 10, 10⟩⟩⟩ =
      generateFeatureId ⟨1, none, ⟨"Polygon", [1, 2], ⟨0, 0, 10, 10⟩⟩⟩ := by
  have h := spec_C9_derived_id ⟨0, none, ⟨"Polygon", [1, 2], ⟨0, 0, 10, 10⟩⟩⟩
    ⟨1, none, ⟨"Polygon", [1, 2], ⟨0, 0, 10, 10⟩⟩⟩
  exact ⟨(h.1 rfl).trans (by decide), h.2 rfl⟩

/-- Membership in `findNeighbors` unfolded: the other feature is in the input
list, is a different object, and its extent-overlap test succeeds. -/
theorem mem_findNeighbors (a b : Feature) (all : List Feature) :
    b ∈ findNeighbors a all ↔
      (b ∈ all ∧ a ≠ b ∧ extentsIntersect a.geom.ext b.geom.ext = true) := by
  simp [findNeighbors, List.mem_filter, intersectsExtent, and_assoc]

/-- Extent overlap is a symmetric test. -/
theorem extentsIntersect_symm (a b : Extent) :
    extentsIntersect a b = true ↔ extentsIntersect b a = true := by
  simp only [extentsIntersect, Bool.and_eq_true, decide_eq_true_eq]
  omega

/-- C8: for distinct features of the input list, the neighbor relation is
symmetric, and membership is decided exactly by the bounding-extent overlap
test. -/
theorem spec_C8_neighbor_symmetry (f g : Feature) (all : List Feature)
    (hf : f ∈ all) (hg : g ∈ all) (hne : f ≠ g) :
    (g ∈ findNeighbors f all ↔ f ∈ findNeighbors g all) ∧
    (g ∈ findNeighbors f all ↔ extentsIntersect f.geom.ext g.geom.ext = true) := by
  constructor
  · rw [mem_findNeighbors f g all, mem_findNeighbors g f all]
    constructor
    · rintro ⟨-, -, hx⟩
      exact ⟨hf, Ne.symm hne, (extentsIntersect_symm _ _).mp hx⟩
    · rintro ⟨-, -, hx⟩
      exact ⟨hg, hne, (extentsIntersect_symm _ _).mp hx⟩
  · rw [mem_findNeighbors f g all]
    constructor
    · rintro ⟨-, -, hx⟩
      exact hx
    · intro hx
      exact ⟨hg, hne, hx⟩

/-- Witness for C8 at two concrete overlapping polygons. -/
theorem spec_C8_neighbor_symmetry_witness :
    (⟨1, none, ⟨"Polygon", [1], ⟨5, 5, 15, 15⟩⟩⟩ ∈
        findNeighbors ⟨0, none, ⟨"Polygon", [0], ⟨0, 0, 10, 10⟩⟩⟩
          [⟨0, none, ⟨"Polygon", [0], ⟨0, 0, 10, 10⟩⟩⟩,
           ⟨1, none, ⟨"Polygon", [1], ⟨5, 5, 15, 15⟩⟩⟩] ↔
      ⟨0, none, ⟨"Polygon", [0], ⟨0, 0, 10, 10⟩⟩⟩ ∈
        findNeighbors ⟨1, none, ⟨"Polygon", [1], ⟨5, 5, 15, 15⟩⟩⟩
          [⟨0, none, ⟨"Polygon", [0], ⟨0, 0, 10, 10⟩⟩⟩,
           ⟨1, none, ⟨"Polygon", [1], ⟨5, 5, 15, 15⟩⟩⟩]) ∧
    (⟨1, none, ⟨"Polygon", [1], ⟨5, 5, 15, 15⟩⟩⟩ ∈
        findNeighbors ⟨0, none, ⟨"Polygon", [0], ⟨0, 0, 10, 10⟩⟩⟩
          [⟨0, none, ⟨"Polygon", [0], ⟨0, 0, 10, 10⟩⟩⟩,
           ⟨1, none, ⟨"Polygon", [1], ⟨5, 5, 15, 15⟩⟩⟩] ↔
      extentsIntersect (⟨0, 0, 10, 10⟩ : Extent) ⟨5, 5, 15, 15⟩ = true) :=
  spec_C8_neighbor_symmetry ⟨0, none, ⟨"Polygon", [0], ⟨0, 0, 10, 10⟩⟩⟩
    ⟨1, none, ⟨"Polygon", [1], ⟨5, 5, 15, 15⟩⟩⟩
    [⟨0, none, ⟨"Polygon", [0], ⟨0, 0, 10, 10⟩⟩⟩,
     ⟨1, none, ⟨"Polygon", [1], ⟨5, 5, 15, 15⟩⟩⟩]
    (by decide) (by decide) (by decide)

/-- C5 counterexample: a store holding exactly one point feature, queried with
a different marker object: `findMarkersWithinDistance` does not return an
empty sequence — it propagates the `TypeError` of the distance computation
(and even with a working distance it would return the stored marker). -/
theorem spec_C5_counterexample :
    findMarkersWithinDistance [⟨0, none, ⟨"Point", [0, 0], ⟨0, 0, 0, 0⟩⟩⟩]
      ⟨1, none, ⟨"Point", [0, 0], ⟨0, 0, 0, 0⟩⟩⟩ 1 = .error .typeError := rfl

/-- C5 (amended): for a store with zero or one point feature,
`findNearestMarker` returns `null` without raising, and
`findMarkersWithinDistance` returns an empty sequence without raising provided
the queried marker is the store's sole feature (or the store is empty). -/
theorem spec_C5_empty_store (markers : List Feature) (m : Feature) (d : Rat)
    (hlen : markers.length ≤ 1) :
    findNearestMarker markers m = .ok none ∧
    (markers = [] ∨ markers = [m] →
      findMarkersWithinDistance markers m d = .ok []) := by
  constructor
  · simp [findNearestMarker, hlen]
  · rintro (h | h) <;> subst h <;>
      simp [findMarkersWithinDistance, findWithinLoop]

/-- Witness for C5 (amended) at a one-marker store queried with its own
marker. -/
theorem spec_C5_empty_store_witness :
    findNearestMarker [⟨0, none, ⟨"Point", [0, 0], ⟨0, 0, 0, 0⟩⟩⟩]
        ⟨0, none, ⟨"Point", [0, 0], ⟨0, 0, 0, 0⟩⟩⟩ = .ok none ∧
    findMarkersWithinDistance [⟨0, none, ⟨"Point", [0, 0], ⟨0, 0, 0, 0⟩⟩⟩]
        ⟨0, none, ⟨"Point", [0, 0], ⟨0, 0, 0, 0⟩⟩⟩ 1 = .ok [] := by
  have h := spec_C5_empty_store [⟨0, none, ⟨"Point", [0, 0], ⟨0, 0, 0, 0⟩⟩⟩]
    ⟨0, none, ⟨"Point", [0, 0], ⟨0, 0, 0, 0⟩⟩⟩ 1 (by decide)
  exact ⟨h.1, h.2 (Or.inr rfl)⟩

/-- Ten mutually overlapping polygons that exhaust the palette around
`exhaustedFeature`. -/
def exhaustedNeighbors : List Feature :=
  (List.range 10).map
    (fun k => ⟨k + 1, none, ⟨"Polygon", [Int.ofNat k + 1], ⟨0, 0, 10, 10⟩⟩⟩)

/-- A polygon whose ten neighbors already use every palette color. -/
def exhaustedFeature : Feature :=
  ⟨0, none, ⟨"Polygon", [0], ⟨0, 0, 10, 10⟩⟩⟩

/-- The feature list of the palette-exhaustion scenario. -/
def exhaustedAll : List Feature := exhaustedFeature :: exhaustedNeighbors

/-- A color map in which the ten neighbors hold the ten palette colors. -/
def exhaustedColors : List (String × String) :=
  (exhaustedNeighbors.map generateFeatureHash).zip colorPalette

/-- C3 counterexample: the claim says that when every palette color is used by
a neighbor, the random fallback color is used *without* being cached, so the
cache retains no entry for the feature. In the code `getPolygonColor`
unconditionally executes `colorCache.polygonColors.set(featureHash, color)`,
so after the call the cache does retain the (random) color. -/
theorem spec_C3_counterexample :
    jsGet (getPolygonColor exhaustedFeature exhaustedAll (7, 8, 9)
        exhaustedColors).2 (generateFeatureHash exhaustedFeature) =
      some (randomColorString (7, 8, 9)) := by decide

/-- C3 (amended): when every palette color is already used by a neighbor, the
assigned color is the freshly generated random color, and it *is* cached like
any other color — the cache retains that entry for the feature after the call
(a later recomputation can differ only after the cache is invalidated). -/
theorem spec_C3_random_cached (f : Feature) (all : List Feature)
    (rgb : Nat × Nat × Nat) (m : List (String × String))
    (hmiss : jsGet m (generateFeatureHash f) = none)
    (hexh : ∀ c ∈ colorPalette, c ∈ neighborColors f all m) :
    (getPolygonColor f all rgb m).1 = randomColorString rgb ∧
    jsGet (getPolygonColor f all rgb m).2 (generateFeatureHash f) =
      some (randomColorString rgb) := by
  have hfind : colorPalette.find?
      (fun c => !(neighborColors f all m).contains c) = none := by
    rw [List.find?_eq_none]
    intro c hc
    simp [hexh c hc]
  have hcolor : generateDistinctColor (neighborColors f all m) rgb =
      randomColorString rgb := by
    rw [generateDistinctColor, hfind]
  rw [getPolygonColor_miss hmiss]
  refine ⟨hcolor, ?_⟩
  rw [jsGet_set_self, hcolor]

/-- Witness for C3 (amended) at the concrete palette-exhaustion scenario. -/
theorem spec_C3_random_cached_witness :
    (getPolygonColor exhaustedFeature exhaustedAll (7, 8, 9)
        exhaustedColors).1 = randomColorString (7, 8, 9) ∧
    jsGet (getPolygonColor exhaustedFeature exhaustedAll (7, 8, 9)
        exhaustedColors).2 (generateFeatureHash exhaustedFeature) =
      some (randomColorString (7, 8, 9)) :=
  spec_C3_random_cached exhaustedFeature exhaustedAll (7, 8, 9)
    exhaustedColors (by decide) (by decide)

/-- Five mutually bounding-box-overlapping polygons (all share the extent
`[0, 0, 10, 10]`). -/
def fivePolys : List Feature :=
  [⟨1, none, ⟨"Polygon", [1], ⟨0, 0, 10, 10⟩⟩⟩,
   ⟨2, none, ⟨"Polygon", [2], ⟨0, 0, 10, 10⟩⟩⟩,
   ⟨3, none, ⟨"Polygon", [3], ⟨0, 0, 10, 10⟩⟩⟩,
   ⟨4, none, ⟨"Polygon", [4], ⟨0, 0, 10, 10⟩⟩⟩,
   ⟨5, none, ⟨"Polygon", [5], ⟨0, 0, 10, 10⟩⟩⟩]

/-- C7: a feature with no cached color whose neighbor set contributes fewer
already-assigned colors than the palette size receives the first palette
color not used by any neighbor — hence a color distinct from every neighbor
color; and concretely, five mutually overlapping polygons colored from an
empty cache all receive distinct colors. -/
theorem spec_C7_greedy_distinct (f : Feature) (all : List Feature)
    (rgb : Nat × Nat × Nat) (m : List (String × String))
    (hmiss : jsGet m (generateFeatureHash f) = none)
    (hfew : (neighborColors f all m).length < colorPalette.length) :
    (colorPalette.find? (fun c => !(neighborColors f all m).contains c) =
        some (getPolygonColor f all rgb m).1 ∧
      (getPolygonColor f all rgb m).1 ∈ colorPalette ∧
      ∀ c ∈ neighborColors f all m, (getPolygonColor f all rgb m).1 ≠ c) ∧
    ((calculatePolygonColors fivePolys [] 0 (fun _ => (0, 0, 0))
        ⟨none, [], []⟩).1.map Prod.snd).Nodup := by
  constructor
  · have hfind : ∃ c₀, colorPalette.find?
        (fun c => !(neighborColors f all m).contains c) = some c₀ := by
      cases hf : colorPalette.find?
          (fun c => !(neighborColors f all m).contains c) with
      | some c₀ => exact ⟨c₀, rfl⟩
      | none =>
        exfalso
        rw [List.find?_eq_none] at hf
        have hsub : colorPalette.toFinset ⊆ (neighborColors f all m).toFinset := by
          intro c hc
          rw [List.mem_toFinset] at hc ⊢
          have := hf c hc
          simpa using this
        have h1 : colorPalette.toFinset.card ≤
            (neighborColors f all m).toFinset.card := Finset.card_le_card hsub
        have h2 : (neighborColors f all m).toFinset.card ≤
            (neighborColors f all m).length := (neighborColors f all m).toFinset_card_le
        have h3 : colorPalette.toFinset.card = colorPalette.length := by decide
        omega
    obtain ⟨c₀, hc₀⟩ := hfind
    have hcolor : generateDistinctColor (neighborColors f all m) rgb = c₀ := by
      rw [generateDistinctColor, hc₀]
    have hpred := List.find?_some hc₀
    have hnotmem : c₀ ∉ neighborColors f all m := by
      simpa using hpred
    rw [getPolygonColor_miss hmiss]
    refine ⟨by rw [hcolor, hc₀], ?_, ?_⟩
    · rw [hcolor]
      exact List.mem_of_find?_eq_some hc₀
    · intro c hc he
      rw [hcolor] at he
      have h4 : c₀ = c := he
      rw [← h4] at hc
      exact hnotmem hc
  · decide

/-- Witness for C7: a feature with no neighbors and an empty cache. -/
theorem spec_C7_greedy_distinct_witness :
    (colorPalette.find? (fun c => !(neighborColors
          ⟨0, none, ⟨"Polygon", [0], ⟨0, 0, 1, 1⟩⟩⟩
          [⟨0, none, ⟨"Polygon", [0], ⟨0, 0, 1, 1⟩⟩⟩] []).contains c) =
        some (getPolygonColor ⟨0, none, ⟨"Polygon", [0], ⟨0, 0, 1, 1⟩⟩⟩
          [⟨0, none, ⟨"Polygon", [0], ⟨0, 0, 1, 1⟩⟩⟩] (0, 0, 0) []).1 ∧
      (getPolygonColor ⟨0, none, ⟨"Polygon", [0], ⟨0, 0, 1, 1⟩⟩⟩
          [⟨0, none, ⟨"Polygon", [0], ⟨0, 0, 1, 1⟩⟩⟩] (0, 0, 0) []).1 ∈
        colorPalette ∧
      ∀ c ∈ neighborColors ⟨0, none, ⟨"Polygon", [0], ⟨0, 0, 1, 1⟩⟩⟩
          [⟨0, none, ⟨"Polygon", [0], ⟨0, 0, 1, 1⟩⟩⟩] [],
        (getPolygonColor ⟨0, none, ⟨"Polygon", [0], ⟨0, 0, 1, 1⟩⟩⟩
          [⟨0, none, ⟨"Polygon", [0], ⟨0, 0, 1, 1⟩⟩⟩] (0, 0, 0) []).1 ≠ c) ∧
    ((calculatePolygonColors fivePolys [] 0 (fun _ => (0, 0, 0))
        ⟨none, [], []⟩).1.map Prod.snd).Nodup :=
  spec_C7_greedy_distinct ⟨0, none, ⟨"Polygon", [0], ⟨0, 0, 1, 1⟩⟩⟩
    [⟨0, none, ⟨"Polygon", [0], ⟨0, 0, 1, 1⟩⟩⟩] (0, 0, 0) [] (by decide)
    (by decide)

/-- Cache validity only reads the timestamp and the fingerprint map. -/
theorem isCacheValid_congr (c c' : ColorCache) (files : List (List Char))
    (ht : c.timestamp = c'.timestamp) (hf : c.fileHashes = c'.fileHashes) :
    isCacheValid c files = isCacheValid c' files := by
  rw [isCacheValid, isCacheValid, ht, hf]

theorem jsGet_pruneColors (cur : List String) (m : List (String × String))
    (k : String) :
    jsGet (pruneColors cur m) k =
      if cur.contains k then jsGet m k else none :=
  jsGet_filter_key m (fun x => cur.contains x) k

/-- After the validation phase, hashes outside the current feature set have
no cached color. -/
theorem revalidate_get_none {features : List Feature}
    {files : List (List Char)} {now : Nat} {cache : ColorCache} {h : String}
    (hne : h ∉ features.map generateFeatureHash) :
    jsGet (revalidateCache features files now cache).polygonColors h = none := by
  rw [revalidateCache]
  by_cases hv : isCacheValid cache files = true
  · rw [if_pos hv]
    have hcon : (features.map generateFeatureHash).contains h = false := by
      simpa using hne
    show jsGet (pruneColors (features.map generateFeatureHash)
      cache.polygonColors) h = none
    rw [jsGet_pruneColors, hcon]
    simp
  · rw [if_neg hv]
    rfl

/-- C10: after `calculatePolygonColors`, the returned mapping holds a
(non-empty) color for every input feature — `getPolygonColor` always stores
the color it produces, including the random fallback — so
`applyPolygonColors` never falls back to the neutral default for an input
feature and writes exactly the mapped color onto it. The hypothesis `hvals`
is the invariant that cached colors are never the empty string (colors only
ever enter the cache from `generateDistinctColor`). -/
theorem spec_C10_all_features_colored (features : List Feature)
    (files : List (List Char)) (now : Nat) (rand : Nat → Nat × Nat × Nat)
    (cache : ColorCache) (hvals : ∀ p ∈ cache.polygonColors, p.2 ≠ "")
    (f : Feature) (hf : f ∈ features) :
    ∃ c, jsGet (calculatePolygonColors features files now rand cache).1
          (generateFeatureHash f) = some c ∧ c ≠ "" ∧
        fillColorFor (calculatePolygonColors features files now rand cache).1
          f = c ∧
        (f, c) ∈ (applyPolygonColors features files now rand cache).1 := by
  have hstart : ∀ p ∈ (revalidateCache features files now cache).polygonColors,
      p.2 ≠ "" := by
    rw [revalidateCache]
    by_cases hv : isCacheValid cache files = true
    · rw [if_pos hv]
      intro p hp
      exact hvals p (List.mem_filter.mp hp).1
    · rw [if_neg hv]
      intro p hp
      cases hp
  have hm : (calculatePolygonColors features files now rand cache).1 =
      assignColors features rand features 0
        (revalidateCache features files now cache).polygonColors := rfl
  have hvals' : ∀ p ∈ (calculatePolygonColors features files now rand cache).1,
      p.2 ≠ "" := by
    rw [hm]
    exact assignColors_values hstart
  have hsome := @assignColors_has features rand features 0
    (revalidateCache features files now cache).polygonColors f hf
  rw [← hm] at hsome
  cases hc : jsGet (calculatePolygonColors features files now rand cache).1
      (generateFeatureHash f) with
  | none => exact absurd hc hsome
  | some c =>
    have hcne : c ≠ "" := hvals' _ (jsGet_mem hc)
    have hfill : fillColorFor
        (calculatePolygonColors features files now rand cache).1 f = c := by
      simp only [fillColorFor, hc, if_neg hcne]
    refine ⟨c, rfl, hcne, hfill, ?_⟩
    have happ : (applyPolygonColors features files now rand cache).1 =
        features.map (fun g => (g, fillColorFor
          (calculatePolygonColors features files now rand cache).1 g)) := rfl
    rw [happ]
    exact List.mem_map.mpr ⟨f, hf, by rw [hfill]⟩

/-- Witness for C10: one polygon, empty initial cache. -/
theorem spec_C10_all_features_colored_witness :
    ∃ c, jsGet (calculatePolygonColors
          [⟨0, none, ⟨"Polygon", [3], ⟨0, 0, 1, 1⟩⟩⟩] [] 0 (fun _ => (0, 0, 0))
          ⟨none, [], []⟩).1
          (generateFeatureHash ⟨0, none, ⟨"Polygon", [3], ⟨0, 0, 1, 1⟩⟩⟩) =
        some c ∧ c ≠ "" ∧
      fillColorFor (calculatePolygonColors
          [⟨0, none, ⟨"Polygon", [3], ⟨0, 0, 1, 1⟩⟩⟩] [] 0 (fun _ => (0, 0, 0))
          ⟨none, [], []⟩).1 ⟨0, none, ⟨"Polygon", [3], ⟨0, 0, 1, 1⟩⟩⟩ = c ∧
      (⟨0, none, ⟨"Polygon", [3], ⟨0, 0, 1, 1⟩⟩⟩, c) ∈
        (applyPolygonColors [⟨0, none, ⟨"Polygon", [3], ⟨0, 0, 1, 1⟩⟩⟩] [] 0
          (fun _ => (0, 0, 0)) ⟨none, [], []⟩).1 :=
  spec_C10_all_features_colored [⟨0, none, ⟨"Polygon", [3], ⟨0, 0, 1, 1⟩⟩⟩]
    [] 0 (fun _ => (0, 0, 0)) ⟨none, [], []⟩
    (by intro p hp; cases hp) ⟨0, none, ⟨"Polygon", [3], ⟨0, 0, 1, 1⟩⟩⟩
    (List.mem_singleton.mpr rfl)

/-- C6: when the cache is valid, the call deletes cached entries whose
feature hash is absent from the input and returns the prior cached color,
unchanged, for every feature that kept its cached entry. -/
theorem spec_C6_prune_preserves (features : List Feature)
    (files : List (List Char)) (now : Nat) (rand : Nat → Nat × Nat × Nat)
    (cache : ColorCache) (hvalid : isCacheValid cache files = true) :
    (∀ h, h ∉ features.map generateFeatureHash →
      jsGet (calculatePolygonColors features files now rand cache).1 h = none) ∧
    (∀ f ∈ features, ∀ col,
      jsGet cache.polygonColors (generateFeatureHash f) = some col →
      jsGet (calculatePolygonColors features files now rand cache).1
        (generateFeatureHash f) = some col) := by
  have hm : (calculatePolygonColors features files now rand cache).1 =
      assignColors features rand features 0
        (revalidateCache features files now cache).polygonColors := rfl
  have hpc : (revalidateCache features files now cache).polygonColors =
      pruneColors (features.map generateFeatureHash) cache.polygonColors := by
    rw [revalidateCache, if_pos hvalid]
  constructor
  · intro h hne
    rw [hm]
    exact assignColors_keys (revalidate_get_none hne) hne
  · intro f hf col hcol
    have hmemhash : (features.map generateFeatureHash).contains
        (generateFeatureHash f) = true := by
      simpa using (List.mem_map.mpr ⟨f, hf, rfl⟩ :
        generateFeatureHash f ∈ features.map generateFeatureHash)
    have hpruned : jsGet (revalidateCache features files now
        cache).polygonColors (generateFeatureHash f) = some col := by
      rw [hpc, jsGet_pruneColors, hmemhash]
      simpa using hcol
    rw [hm]
    exact assignColors_preserves hpruned

/-- Witness for C6: color two polygons, then drop the second and recolor with
the now-valid cache; the second polygon's entry is deleted and the first
keeps its prior color. -/
theorem spec_C6_prune_preserves_witness :
    jsGet (calculatePolygonColors [⟨1, none, ⟨"Polygon", [1], ⟨0, 0, 10, 10⟩⟩⟩]
        [['a']] 1 (fun _ => (0, 0, 0))
        (calculatePolygonColors
          [⟨1, none, ⟨"Polygon", [1], ⟨0, 0, 10, 10⟩⟩⟩,
           ⟨2, none, ⟨"Polygon", [2], ⟨0, 0, 10, 10⟩⟩⟩]
          [['a']] 0 (fun _ => (0, 0, 0)) ⟨none, [], []⟩).2).1
      (generateFeatureHash ⟨2, none, ⟨"Polygon", [2], ⟨0, 0, 10, 10⟩⟩⟩) =
      none ∧
    jsGet (calculatePolygonColors [⟨1, none, ⟨"Polygon", [1], ⟨0, 0, 10, 10⟩⟩⟩]
        [['a']] 1 (fun _ => (0, 0, 0))
        (calculatePolygonColors
          [⟨1, none, ⟨"Polygon", [1], ⟨0, 0, 10, 10⟩⟩⟩,
           ⟨2, none, ⟨"Polygon", [2], ⟨0, 0, 10, 10⟩⟩⟩]
          [['a']] 0 (fun _ => (0, 0, 0)) ⟨none, [], []⟩).2).1
      (generateFeatureHash ⟨1, none, ⟨"Polygon", [1], ⟨0, 0, 10, 10⟩⟩⟩) =
      some "rgba(31, 119, 180, 0.7)" := by
  have h := spec_C6_prune_preserves
    [⟨1, none, ⟨"Polygon", [1], ⟨0, 0, 10, 10⟩⟩⟩] [['a']] 1 (fun _ => (0, 0, 0))
    (calculatePolygonColors
      [⟨1, none, ⟨"Polygon", [1], ⟨0, 0, 10, 10⟩⟩⟩,
       ⟨2, none, ⟨"Polygon", [2], ⟨0, 0, 10, 10⟩⟩⟩]
      [['a']] 0 (fun _ => (0, 0, 0)) ⟨none, [], []⟩).2
    (by decide)
  exact ⟨h.1 _ (by decide),
    h.2 ⟨1, none, ⟨"Polygon", [1], ⟨0, 0, 10, 10⟩⟩⟩ (by decide) _ (by decide)⟩

/-- C1: calling `calculatePolygonColors` twice in succession with the same
arguments (and no other cache mutation in between) returns an identical
featureHash→color mapping both times, whatever the starting cache and
whatever the random draws. -/
theorem spec_C1_idempotent (features : List Feature)
    (files : List (List Char)) (now1 now2 : Nat)
    (rand1 rand2 : Nat → Nat × Nat × Nat) (cache : ColorCache) :
    (calculatePolygonColors features files now2 rand2
        (calculatePolygonColors features files now1 rand1 cache).2).1 =
      (calculatePolygonColors features files now1 rand1 cache).1 := by
  have hm1 : (calculatePolygonColors features files now1 rand1 cache).1 =
      assignColors features rand1 features 0
        (revalidateCache features files now1 cache).polygonColors := rfl
  have hc2 : (calculatePolygonColors features files now1 rand1 cache).2 =
      { revalidateCache features files now1 cache with
          polygonColors :=
            (calculatePolygonColors features files now1 rand1 cache).1 } := rfl
  have hvalid2 : isCacheValid
      (calculatePolygonColors features files now1 rand1 cache).2 files = true := by
    rw [hc2]
    by_cases hv : isCacheValid cache files = true
    · have hcongr := isCacheValid_congr
        { revalidateCache features files now1 cache with
            polygonColors :=
              (calculatePolygonColors features files now1 rand1 cache).1 }
        cache files ?_ ?_
      · rw [hcongr]; exact hv
      · show (revalidateCache features files now1 cache).timestamp =
          cache.timestamp
        rw [revalidateCache, if_pos hv]
      · show (revalidateCache features files now1 cache).fileHashes =
          cache.fileHashes
        rw [revalidateCache, if_pos hv]
    · have hcongr := isCacheValid_congr
        { revalidateCache features files now1 cache with
            polygonColors :=
              (calculatePolygonColors features files now1 rand1 cache).1 }
        (updateCache files now1 { cache with polygonColors := [] }) files ?_ ?_
      · rw [hcongr]
        exact isCacheValid_updateCache files now1 _
      · show (revalidateCache features files now1 cache).timestamp =
          (updateCache files now1 { cache with polygonColors := [] }).timestamp
        rw [revalidateCache, if_neg hv]
      · show (revalidateCache features files now1 cache).fileHashes =
          (updateCache files now1 { cache with polygonColors := [] }).fileHashes
        rw [revalidateCache, if_neg hv]
  have hkeys : ∀ p ∈ (calculatePolygonColors features files now1 rand1 cache).1,
      (features.map generateFeatureHash).contains p.1 = true := by
    intro p hp
    by_cases hmem : p.1 ∈ features.map generateFeatureHash
    · simpa using hmem
    · exfalso
      have hnone : jsGet
          (calculatePolygonColors features files now1 rand1 cache).1 p.1 = none := by
        rw [hm1]
        exact assignColors_keys (revalidate_get_none hmem) hmem
      exact jsGet_isSome_of_mem hp hnone
  have hprune2 : (revalidateCache features files now2
      (calculatePolygonColors features files now1 rand1 cache).2).polygonColors =
      (calculatePolygonColors features files now1 rand1 cache).1 := by
    rw [revalidateCache, if_pos hvalid2]
    show pruneColors (features.map generateFeatureHash)
      (calculatePolygonColors features files now1 rand1 cache).1 =
      (calculatePolygonColors features files now1 rand1 cache).1
    exact List.filter_eq_self.mpr hkeys
  have hall : ∀ f ∈ features, jsGet
      (calculatePolygonColors features files now1 rand1 cache).1
      (generateFeatureHash f) ≠ none := by
    intro f hf
    rw [hm1]
    exact assignColors_has hf
  calc (calculatePolygonColors features files now2 rand2
        (calculatePolygonColors features files now1 rand1 cache).2).1
      = assignColors features rand2 features 0
          (revalidateCache features files now2
            (calculatePolygonColors features files now1 rand1 cache).2).polygonColors := rfl
    _ = assignColors features rand2 features 0
          (calculatePolygonColors features files now1 rand1 cache).1 := by
          rw [hprune2]
    _ = (calculatePolygonColors features files now1 rand1 cache).1 :=
          assignColors_id hall

/- ### The rolling hash separates strings differing in one character -/

/-- `toInt32` preserves the value modulo `2^32`. -/
theorem toInt32_modEq (x : Int) : toInt32 x ≡ x [ZMOD 2 ^ 32] := by
  show toInt32 x % 2 ^ 32 = x % 2 ^ 32
  have h32 : (2 : Int) ^ 32 = 4294967296 := by norm_num
  have h31 : (2 : Int) ^ 31 = 2147483648 := by norm_num
  rw [toInt32, h32, h31]
  omega

/-- One hash step is multiplication by 31 plus the character code, mod `2^32`. -/
theorem hashStep_modEq (h : Int) (c : Char) :
    hashStep h c ≡ 31 * h + (c.toNat : Int) [ZMOD 2 ^ 32] := by
  have e1 : toInt32 (toInt32 (h * 32) - h + (c.toNat : Int)) ≡
      toInt32 (h * 32) - h + (c.toNat : Int) [ZMOD 2 ^ 32] := toInt32_modEq _
  have e2 : toInt32 (h * 32) ≡ h * 32 [ZMOD 2 ^ 32] := toInt32_modEq _
  have e3 : toInt32 (h * 32) - h + (c.toNat : Int) ≡
      h * 32 - h + (c.toNat : Int) [ZMOD 2 ^ 32] :=
    Int.ModEq.add_right _ (Int.ModEq.sub_right _ e2)
  have e4 : h * 32 - h + (c.toNat : Int) = 31 * h + (c.toNat : Int) := by ring
  have e5 := e1.trans e3
  rwa [e4] at e5

/-- The exact (unwrapped) 31-based polynomial evaluation of the content. -/
def intPoly (l : List Char) (h : Int) : Int :=
  l.foldl (fun a c => 31 * a + (c.toNat : Int)) h

/-- The wrapped hash agrees with the exact polynomial modulo `2^32`. -/
theorem foldl_hashStep_modEq (l : List Char) (h h' : Int)
    (hm : h ≡ h' [ZMOD 2 ^ 32]) :
    l.foldl hashStep h ≡ intPoly l h' [ZMOD 2 ^ 32] := by
  induction l generalizing h h' with
  | nil => exact hm
  | cons c rest ih =>
    show rest.foldl hashStep (hashStep h c) ≡
      intPoly rest (31 * h' + (c.toNat : Int)) [ZMOD 2 ^ 32]
    apply ih
    exact (hashStep_modEq h c).trans
      (Int.ModEq.add_right _ (Int.ModEq.mul_left _ hm))

theorem intPoly_append (l1 l2 : List Char) (h : Int) :
    intPoly (l1 ++ l2) h = intPoly l2 (intPoly l1 h) := by
  simp [intPoly, List.foldl_append]

theorem intPoly_sub (l : List Char) (a b : Int) :
    intPoly l a - intPoly l b = 31 ^ l.length * (a - b) := by
  induction l generalizing a b with
  | nil => simp [intPoly]
  | cons c rest ih =>
    show intPoly rest (31 * a + (c.toNat : Int)) -
      intPoly rest (31 * b + (c.toNat : Int)) = 31 ^ (c :: rest).length * (a - b)
    rw [ih, List.length_cons]
    ring

/-- Replacing a single character always changes `generateContentHash`:
the difference of the exact polynomials is `31^k * (b - a) ≢ 0 (mod 2^32)`
because `31^k` is odd and the character codes differ by less than `2^32`. -/
theorem generateContentHash_ne {old new : List Char} (pre suf : List Char)
    (a b : Char) (hab : a ≠ b) (hold : old = pre ++ a :: suf)
    (hnew : new = pre ++ b :: suf) :
    generateContentHash old ≠ generateContentHash new := by
  intro heq
  have h1 : generateContentHash old ≡ intPoly old 0 [ZMOD 2 ^ 32] :=
    foldl_hashStep_modEq old 0 0 (Int.ModEq.refl 0)
  have h2 : generateContentHash new ≡ intPoly new 0 [ZMOD 2 ^ 32] :=
    foldl_hashStep_modEq new 0 0 (Int.ModEq.refl 0)
  rw [heq] at h1
  have h3 : intPoly old 0 ≡ intPoly new 0 [ZMOD 2 ^ 32] := h1.symm.trans h2
  have hP : intPoly new 0 - intPoly old 0 =
      31 ^ suf.length * ((b.toNat : Int) - (a.toNat : Int)) := by
    rw [hnew, hold, intPoly_append, intPoly_append]
    show intPoly suf (31 * intPoly pre 0 + (b.toNat : Int)) -
      intPoly suf (31 * intPoly pre 0 + (a.toNat : Int)) = _
    rw [intPoly_sub]
    ring
  have hdvd : ((2 : Int) ^ 32) ∣
      31 ^ suf.length * ((b.toNat : Int) - (a.toNat : Int)) := by
    rw [← hP]
    exact h3.dvd
  have hcopN : Nat.Coprime (2 ^ 32) (31 ^ suf.length) :=
    Nat.Coprime.pow 32 suf.length (by decide)
  have hcop : IsCoprime ((2 : Int) ^ 32) ((31 : Int) ^ suf.length) := by
    rw [Int.isCoprime_iff_gcd_eq_one]
    have e1 : ((2 : Int) ^ 32) = ((2 ^ 32 : Nat) : Int) := by norm_cast
    have e2 : ((31 : Int) ^ suf.length) = ((31 ^ suf.length : Nat) : Int) := by
      norm_cast
    rw [e1, e2, Int.gcd_natCast_natCast]
    exact hcopN
  have hdvd2 : ((2 : Int) ^ 32) ∣ ((b.toNat : Int) - (a.toNat : Int)) :=
    hcop.dvd_of_dvd_mul_left hdvd
  have ha : a.toNat < 4294967296 := by
    have := UInt32.toNat_lt a.val
    norm_num at this
    exact this
  have hb : b.toNat < 4294967296 := by
    have := UInt32.toNat_lt b.val
    norm_num at this
    exact this
  have habs : |(b.toNat : Int) - (a.toNat : Int)| < (2 : Int) ^ 32 := by
    have h32 : (2 : Int) ^ 32 = 4294967296 := by norm_num
    rw [h32, abs_lt]
    omega
  have hzero : (b.toNat : Int) - (a.toNat : Int) = 0 :=
    Int.eq_zero_of_abs_lt_dvd hdvd2 habs
  have heqNat : a.toNat = b.toNat := by omega
  exact hab (Char.ext (UInt32.ext heqNat))

/-- Unfolding a true cache-validity check. -/
theorem isCacheValid_elim {cache : ColorCache} {files : List (List Char)}
    (h : isCacheValid cache files = true) :
    cache.timestamp ≠ none ∧ files.length = cache.fileHashes.length ∧
      checkFiles cache.fileHashes 0 files = true := by
  rw [isCacheValid] at h
  cases ht : cache.timestamp with
  | none => rw [ht] at h; cases h
  | some t =>
    rw [ht] at h
    by_cases hl : files.length ≠ cache.fileHashes.length
    · rw [if_pos hl] at h; cases h
    · rw [if_neg hl] at h
      exact ⟨by simp [ht], by omega, h⟩

/-- Assembling a true cache-validity check. -/
theorem isCacheValid_intro {cache : ColorCache} {files : List (List Char)}
    (ht : cache.timestamp ≠ none)
    (hl : files.length = cache.fileHashes.length)
    (hc : checkFiles cache.fileHashes 0 files = true) :
    isCacheValid cache files = true := by
  rw [isCacheValid]
  cases hts : cache.timestamp with
  | none => exact absurd hts ht
  | some t =>
    rw [if_neg (by omega)]
    exact hc

/-- C2: (a) if the content at some position differs from the content whose
fingerprint is stored for that position by a single replaced character, the
cache check fails and the next call clears the entire color mapping and
stores the fresh fingerprints before assigning colors; (b) likewise when the
number of entries differs from the number of stored fingerprints; (c) when
the count and every fingerprint match (on a rebuilt cache), the mapping is
not cleared — only pruned. -/
theorem spec_C2_invalidation (features : List Feature)
    (files : List (List Char)) (now : Nat) (cache : ColorCache) :
    (∀ j old pre suf a b, a ≠ b → old = pre ++ a :: suf →
      files.get? j = some (pre ++ b :: suf) →
      jsGet cache.fileHashes j = some (generateContentHash old) →
      isCacheValid cache files = false ∧
        revalidateCache features files now cache =
          ⟨some now, [], setFileHashes 0 files []⟩) ∧
    (files.length ≠ cache.fileHashes.length →
      isCacheValid cache files = false ∧
        revalidateCache features files now cache =
          ⟨some now, [], setFileHashes 0 files []⟩) ∧
    (cache.timestamp ≠ none →
      files.length = cache.fileHashes.length →
      (∀ j content, files.get? j = some content →
        jsGet cache.fileHashes j = some (generateContentHash content)) →
      isCacheValid cache files = true ∧
        (revalidateCache features files now cache).polygonColors =
          pruneColors (features.map generateFeatureHash) cache.polygonColors) := by
  have hrev : isCacheValid cache files = false →
      revalidateCache features files now cache =
        ⟨some now, [], setFileHashes 0 files []⟩ := by
    intro hfalse
    rw [revalidateCache, if_neg (by rw [hfalse]; simp)]
    rfl
  refine ⟨?_, ?_, ?_⟩
  · intro j old pre suf a b hab hold hj hstored
    have hfalse : isCacheValid cache files = false := by
      cases hval : isCacheValid cache files with
      | false => rfl
      | true =>
        exfalso
        obtain ⟨-, -, hcheck⟩ := isCacheValid_elim hval
        have hext := checkFiles_extract hcheck j _ hj
        rw [Nat.zero_add, hstored] at hext
        injection hext with hh
        exact generateContentHash_ne pre suf a b hab hold rfl hh
    exact ⟨hfalse, hrev hfalse⟩
  · intro hlen
    have hfalse : isCacheValid cache files = false := by
      cases hval : isCacheValid cache files with
      | false => rfl
      | true =>
        exfalso
        obtain ⟨-, hl, -⟩ := isCacheValid_elim hval
        exact hlen hl
    exact ⟨hfalse, hrev hfalse⟩
  · intro ht hl hmatch
    have hvalid : isCacheValid cache files = true :=
      isCacheValid_intro ht hl
        (checkFiles_of_get (fun j content hj => by
          rw [Nat.zero_add]
          exact hmatch j content hj))
    refine ⟨hvalid, ?_⟩
    rw [revalidateCache, if_pos hvalid]

/-- Witness for C2: a cache fingerprinting the one-character file `"a"`,
queried with `"b"` (single replaced character), with an empty file list
(count mismatch), and with the matching `"a"` again. -/
theorem spec_C2_invalidation_witness :
    (isCacheValid ⟨some 5, [("9", "c")], [(0, generateContentHash ['a'])]⟩
        [['b']] = false ∧
      revalidateCache [] [['b']] 7
          ⟨some 5, [("9", "c")], [(0, generateContentHash ['a'])]⟩ =
        ⟨some 7, [], setFileHashes 0 [['b']] []⟩) ∧
    (isCacheValid ⟨some 5, [("9", "c")], [(0, generateContentHash ['a'])]⟩
        [] = false ∧
      revalidateCache [] [] 7
          ⟨some 5, [("9", "c")], [(0, generateContentHash ['a'])]⟩ =
        ⟨some 7, [], setFileHashes 0 [] []⟩) ∧
    (isCacheValid ⟨some 5, [("9", "c")], [(0, generateContentHash ['a'])]⟩
        [['a']] = true ∧
      (revalidateCache [] [['a']] 7
          ⟨some 5, [("9", "c")], [(0, generateContentHash ['a'])]⟩).polygonColors =
        pruneColors (([] : List Feature).map generateFeatureHash)
          [("9", "c")]) := by
  refine ⟨(spec_C2_invalidation [] [['b']] 7
      ⟨some 5, [("9", "c")], [(0, generateContentHash ['a'])]⟩).1
      0 ['a'] [] [] 'a' 'b' (by decide) rfl rfl rfl,
    (spec_C2_invalidation [] [] 7
      ⟨some 5, [("9", "c")], [(0, generateContentHash ['a'])]⟩).2.1
      (by decide),
    (spec_C2_invalidation [] [['a']] 7
      ⟨some 5, [("9", "c")], [(0, generateContentHash ['a'])]⟩).2.2
      (by decide) (by decide) ?_⟩
  intro j content hj
  cases j with
  | zero =>
    injection hj with hj2
    subst hj2
    rfl
  | succ j' => cases hj
